import Mathlib

/-!
Verification of the `gomitalk-server` request pipeline (`jkl1337/mactts`,
files `gomitalk-server/respbuf.go` and `gomitalk-server/main.go`) against its
natural-language specification.

Go byte slices are modelled as `List Nat`; a Go slice `buf []byte` together
with its backing allocation is modelled by the backing array (a `List Nat` of
length equal to the capacity) plus the slice length.  Machine integers are
modelled as `Nat`/`Int`; a Go runtime panic (out-of-range slice expression) is
modelled by an `Option`-valued operation returning `none`.
-/

namespace Gomitalk

/-- Model of the `ResponseBuffer` struct of `respbuf.go`.  The Go slice field
`buf []byte` is represented by `arr` — the full backing allocation, so that
`arr.length` is the slice capacity `cap(rb.buf)` — together with the slice
length `len`, so that the Go byte sequence `rb.buf` is `arr.take len` and
`len(rb.buf) = len`.  `readOfs` and `status` model the fields of the same
names (`readOfs` is only ever assigned non-negative values, so it is a `Nat`).
The `header http.Header` field is a string multimap no claim depends on and is
not modelled. -/
structure ResponseBuffer where
  arr : List Nat
  len : Nat
  readOfs : Nat
  status : Nat
  deriving DecidableEq, Repr

/-- The byte sequence held by the Go slice `rb.buf`. -/
def ResponseBuffer.buf (rb : ResponseBuffer) : List Nat :=
  rb.arr.take rb.len

/-- A zero-value `ResponseBuffer`, as allocated by `var rb ResponseBuffer` in
`runHandler` (main.go:85): nil slice, zero read offset, zero status. -/
def freshBuffer : ResponseBuffer :=
  { arr := [], len := 0, readOfs := 0, status := 0 }

/-- Well-formedness invariant guaranteed by Go for every reachable buffer
state: the slice length never exceeds the capacity, and every backing byte at
or beyond the slice length is zero (allocations are zero-filled by `make` and
no operation of `respbuf.go` stores past the slice length). -/
def ResponseBuffer.WF (rb : ResponseBuffer) : Prop :=
  rb.len ≤ rb.arr.length ∧ ∀ i, rb.len ≤ i → rb.arr.getD i 0 = 0

/-- Model of `copy(dst, src)` where `dst` is the sub-slice of `arr` starting
at `off`: the bytes of `q` replace `arr[off .. off+|q|)`.  Faithful to the Go
`copy` whenever `off + q.length ≤ arr.length`, which holds at every use site
below (the copied count is always clamped to the destination length first). -/
def setChunk (arr : List Nat) (off : Nat) (q : List Nat) : List Nat :=
  arr.take off ++ q ++ arr.drop (off + q.length)

/-- Model of `func (rb *ResponseBuffer) grow(n int) int` (respbuf.go:46–56).
When `m + n` exceeds the capacity, a fresh zero-filled array of size
`2*cap + n` is allocated (`make([]byte, 2*cap(rb.buf)+n)`; Go `make`
zero-fills) and the `m` live bytes are copied into it; then the slice is
re-sliced to length `m + n` and the old length `m` is returned. -/
def ResponseBuffer.grow (rb : ResponseBuffer) (n : Nat) : ResponseBuffer × Nat :=
  let m := rb.len
  let c := rb.arr.length
  let arr :=
    if m + n > c then rb.arr.take m ++ List.replicate (2 * c + n - m) 0
    else rb.arr
  ({ rb with arr := arr, len := m + n }, m)

/-- Model of `func (rb *ResponseBuffer) Write(p []byte) (int, error)`
(respbuf.go:93–96): grow by `len(p)`, then `copy(rb.buf[m:], p)` where `m` is
the old length.  The Go error result is always nil and is omitted; the
returned `Nat` is the copy count. -/
def ResponseBuffer.Write (rb : ResponseBuffer) (p : List Nat) : ResponseBuffer × Nat :=
  let g := rb.grow p.length
  let rb1 := g.1
  let m := g.2
  let n := min (rb1.len - m) p.length
  ({ rb1 with arr := setChunk rb1.arr m (p.take n) }, n)

/-- Model of `func (rb *ResponseBuffer) WriteAt(p []byte, off int64) (n int, err error)`
(respbuf.go:98–104).  `need := len(p) + int(off) - len(rb.buf)` can be
negative, hence is an `Int`.  The slice expression `rb.buf[off:]` panics at
runtime when `off < 0` or `off > len(rb.buf)`; the panic is modelled as
`none`.  On the non-panicking path the error result is always nil and is
omitted. -/
def ResponseBuffer.WriteAt (rb : ResponseBuffer) (p : List Nat) (off : Int) :
    Option (ResponseBuffer × Nat) :=
  let need : Int := (p.length : Int) + off - (rb.len : Int)
  let rb1 := if 0 < need then (rb.grow need.toNat).1 else rb
  if 0 ≤ off ∧ off ≤ (rb1.len : Int) then
    let o := off.toNat
    let n := min (rb1.len - o) p.length
    some ({ rb1 with arr := setChunk rb1.arr o (p.take n) }, n)
  else none

/-- Model of `func (rb *ResponseBuffer) ReadAt(p []byte, off int64) (n int, err error)`
(respbuf.go:106–115).  The result carries the destination slice after the
copy, the copied count, and whether the returned error is `io.EOF`.  The
slice expression `rb.buf[off:]` (reached only when `int(off) < len(rb.buf)`)
panics for `off < 0`; the panic is modelled as `none`. -/
def ResponseBuffer.ReadAt (rb : ResponseBuffer) (p : List Nat) (off : Int) :
    Option (List Nat × Nat × Bool) :=
  if (rb.len : Int) ≤ off then
    if p.length = 0 then some (p, 0, false) else some (p, 0, true)
  else if off < 0 then none
  else
    let o := off.toNat
    let n := min p.length (rb.len - o)
    some ((rb.buf.drop o).take n ++ p.drop n, n, false)

/-- Model of `func (rb *ResponseBuffer) Read(data []byte) (n int, err error)`
(respbuf.go:19–26): copy from the read cursor forward, advance the cursor,
and report `io.EOF` once the cursor has reached the end.  The result carries
the updated buffer, the destination slice after the copy, the copied count,
and the `io.EOF` flag.  The slice expression `rb.buf[rb.readOfs:]` would
panic for a cursor past the length (not reachable through the API); that case
is modelled as `none`. -/
def ResponseBuffer.Read (rb : ResponseBuffer) (data : List Nat) :
    Option (ResponseBuffer × List Nat × Nat × Bool) :=
  if rb.readOfs ≤ rb.len then
    let n := min data.length (rb.len - rb.readOfs)
    let data1 := (rb.buf.drop rb.readOfs).take n ++ data.drop n
    let ofs := rb.readOfs + n
    some ({ rb with readOfs := ofs }, data1, n, decide (rb.len ≤ ofs))
  else none

/-- Model of `func (rb *ResponseBuffer) WriteHeader(status int)`
(respbuf.go:58–60). -/
def ResponseBuffer.WriteHeader (rb : ResponseBuffer) (s : Nat) : ResponseBuffer :=
  { rb with status := s }

/-- The `Content-Length` header value set by `CopyHeaders` (respbuf.go:70–80):
set to the buffer length only when the buffer is non-empty. -/
def contentLength (buf : List Nat) : Option Nat :=
  if buf.length > 0 then some buf.length else none

/-- Total version of `WriteAt` for non-negative offsets: on the (always
successful) path it yields the updated buffer.  `applyWrites` folds a list of
positional writes `(offset, bytes)` over a buffer, in list order. -/
def ResponseBuffer.WriteAtN (rb : ResponseBuffer) (p : List Nat) (off : Nat) :
    ResponseBuffer :=
  match rb.WriteAt p (off : Int) with
  | some r => r.1
  | none => rb

/-- Folds a sequence of positional writes `(offset, bytes)` over a buffer in
the order given, each performed by `WriteAt`. -/
def applyWrites (rb : ResponseBuffer) (ws : List (Nat × List Nat)) : ResponseBuffer :=
  ws.foldl (fun b w => b.WriteAtN w.2 w.1) rb

/-- Specification-side semantics of one positional write, following the
spec's words: the buffer is a sparse byte sequence, an all-zero extension
covers any gap up to `off + p.length`, and `p` then replaces the range
`[off, off + p.length)`. -/
def modelWrite (c : List Nat) (p : List Nat) (off : Nat) : List Nat :=
  let c1 := c ++ List.replicate (off + p.length - c.length) 0
  c1.take off ++ p ++ c1.drop (off + p.length)

/-- Specification-side result of applying a sequence of positional writes to
an all-zero (empty) initial sparse buffer, in list order. -/
def modelApply (ws : List (Nat × List Nat)) : List Nat :=
  ws.foldl (fun c w => modelWrite c w.2 w.1) []

/-- Two positional writes are disjoint when their written byte ranges
`[off, off + |bytes|)` do not intersect. -/
abbrev WDisjoint (w1 w2 : Nat × List Nat) : Prop :=
  w1.1 + w1.2.length ≤ w2.1 ∨ w2.1 + w2.2.length ≤ w1.1

/-- Model of `mactts.Gender` (mactts.go:151–158): `GenderNil` plus the three
concrete genders. -/
inductive Gender where
  | nil
  | neuter
  | female
  | male
  deriving DecidableEq, Repr

/-- Model of the `Voice` struct of main.go:294–302, restricted to the fields
the registry operations read: the display `Name`, the `Locale` string, and
the `gender mactts.Gender` field used by `Match`.  The remaining fields
(`spec`, the JSON `Gender` string, `Age`, `Identifier`) are carried along by
the Go code but never inspected by any operation a claim is about. -/
structure Voice where
  name : String
  locale : String
  gender : Gender
  deriving DecidableEq, Repr

/-- Model of `VoiceCollection` (main.go:310–314).  The `voiceByName` map is
built by `loadVoices` (main.go:381) by inserting each voice under its name in
enumeration order, so it maps a name to the last voice of that name; it is
modelled as the derived lookup `FindByName` below rather than as a separate
field. -/
structure VoiceCollection where
  voices : List Voice
  deriving DecidableEq, Repr

/-- Model of `func (vc *VoiceCollection) FindByName(name string) *Voice`
(main.go:343–345): lookup in the `voiceByName` map, i.e. the last voice in
enumeration order bearing the name (`nil` = `none` when absent). -/
def VoiceCollection.FindByName (vc : VoiceCollection) (name : String) : Option Voice :=
  vc.voices.reverse.find? (fun v => v.name = name)

/-- Model of `func (vc *VoiceCollection) Match(gender mactts.Gender, locale string) *Voice`
(main.go:330–340): an empty locale is normalized to `"en_US"`; the first
voice in enumeration order whose gender matches (a `GenderNil` query matches
any) and whose locale equals the normalized locale exactly is returned. -/
def VoiceCollection.Match (vc : VoiceCollection) (gender : Gender) (locale : String) :
    Option Voice :=
  let loc := if locale = "" then "en_US" else locale
  vc.voices.find? (fun v => (gender == Gender.nil || gender == v.gender) && loc == v.locale)

/-- The gender-token switch of `speechHandler` (main.go:158–169): the empty
string maps to `GenderNil`, the three recognized tokens map to their genders,
and any other token is invalid (`none`, the `default` branch producing a 400
error). -/
def parseGender (s : String) : Option Gender :=
  if s = "" then some Gender.nil
  else if s = "male" then some Gender.male
  else if s = "neuter" then some Gender.neuter
  else if s = "female" then some Gender.female
  else none

/-- Outcome of the validation-and-voice-resolution prefix of `speechHandler`:
either a resolved voice, or an `httpError` with status 400 (`badRequest`) or
404 (`notFound`) and the message built by the Go code. -/
inductive ResolveResult where
  | ok (v : Voice)
  | badRequest (msg : String)
  | notFound (msg : String)
  deriving DecidableEq, Repr

/-- Model of `speechHandler` lines 142–187: reject empty `text`; then a
non-empty `voice` parameter is resolved by exact name (404 when absent,
gender and locale parameters never consulted); otherwise the `gender` token
is parsed (400 when unrecognized) and, when a gender or language constraint
was given, `Match` resolves it (404 when empty); otherwise the hard-coded
fallback name `"Fred"` is looked up (404 when absent). -/
def validateAndResolve (vc : VoiceCollection) (text voiceName gender lang : String) :
    ResolveResult :=
  if text = "" then .badRequest "missing `text` parameter"
  else if voiceName ≠ "" then
    match vc.FindByName voiceName with
    | none => .notFound ("voice `" ++ voiceName ++ "` not found")
    | some v => .ok v
  else
    match parseGender gender with
    | none => .badRequest "invalid `gender` parameter"
    | some g =>
      if g ≠ Gender.nil ∨ lang ≠ "" then
        match vc.Match g lang with
        | none => .notFound "cannot find voice with specified gender and/or language"
        | some v => .ok v
      else
        match vc.FindByName "Fred" with
        | none => .notFound "unable to find suitable voice"
        | some v => .ok v

/-- The sample-rate switch of `speechHandler` (main.go:189–203): an exact
match against one of the six recognized strings selects that rate; every
other value (including the empty string of an unspecified parameter) leaves
the default 22050. -/
def parseSampleRate (s : String) : Nat :=
  if s = "8000" then 8000
  else if s = "11025" then 11025
  else if s = "16000" then 16000
  else if s = "32000" then 32000
  else if s = "44100" then 44100
  else if s = "48000" then 48000
  else 22050

/-- Model of `func checkEtagDone(req *http.Request, etag string) bool`
(main.go:129–139); `inm` is the request's `If-None-Match` header value (the
empty string when the header is absent). -/
def checkEtagDone (inm : String) (etag : String) : Bool :=
  if inm ≠ "" then
    if etag = "" then false
    else if inm = etag ∨ inm = "*" then true
    else false
  else false

/-- Minimal model of the Go standard library's `http.StatusText` for the
statuses this server deals in; statuses above 500 are included so that the
masking branch of `handleJSONError` is observable. -/
def statusText (status : Nat) : String :=
  if status = 400 then "Bad Request"
  else if status = 404 then "Not Found"
  else if status = 500 then "Internal Server Error"
  else if status = 501 then "Not Implemented"
  else if status = 503 then "Service Unavailable"
  else ""

/-- The error-message selection of `func handleJSONError` (main.go:106–120):
the client-visible message is the error's own text when `status <= 500`, and
the generic `http.StatusText(status)` otherwise. -/
def handleJSONErrorMessage (status : Nat) (errMsg : String) : String :=
  if status ≤ 500 then errMsg else statusText status

/-- Abstract view of the per-request externals of `speechHandler`: the md5
fingerprint it computes (the hash itself is not embedded — the claims treat
it as an opaque validator string), whether each external construction step
succeeds (`newFileFunc`/`ExtAudioFile`, `mactts.NewChannel` with `SetDone`
and `SetExtAudioFile`, `SpeakString`), whether the one-shot done callback
fires within the one-minute timeout, and the positional writes the external
encoder performs into the response buffer. -/
structure SynthEnv where
  etag : String
  encoderOk : Bool
  channelOk : Bool
  speakOk : Bool
  completes : Bool
  output : List (Nat × List Nat)
  deriving DecidableEq, Repr

/-- An error escaping `speechHandler`: an `*httpError` with its status, or a
plain error (mapped to status 500 by `runHandler`). -/
inductive HandlerErr where
  | http (status : Nat) (msg : String)
  | plain (msg : String)
  deriving DecidableEq, Repr

/-- Observable outcome of one `speechHandler` run: the response buffer it
leaves behind, whether the encoder (`newFileFunc`) and the synthesis engine
(`mactts.NewChannel`) were invoked, and the error returned (if any). -/
structure HandlerResult where
  rb : ResponseBuffer
  encoderInvoked : Bool
  engineInvoked : Bool
  err : Option HandlerErr
  deriving DecidableEq, Repr

/-- Model of the control flow of `speechHandler` (main.go:141–291) on a fresh
response buffer: validation and voice resolution; then, when `-etag` is
enabled, the fingerprint comparison, which on a match sets status 304
(`http.StatusNotModified`) and returns nil before any buffer write or any
call into encoder or engine; otherwise encoder construction, engine
construction, `SpeakString` (whose failure makes the handler return nil,
main.go:282–284), and the bounded wait on the done channel, timing out with
the plain error `"timed out synthesizing speech"`.  The encoder's positional
writes are `env.output`, applied to the fresh buffer by `WriteAt`. -/
def speechHandlerModel (vc : VoiceCollection) (text voiceName gender lang inm : String)
    (useEtag : Bool) (env : SynthEnv) : HandlerResult :=
  match validateAndResolve vc text voiceName gender lang with
  | .badRequest m => ⟨freshBuffer, false, false, some (.http 400 m)⟩
  | .notFound m => ⟨freshBuffer, false, false, some (.http 404 m)⟩
  | .ok _ =>
    if useEtag && checkEtagDone inm env.etag then
      ⟨freshBuffer.WriteHeader 304, false, false, none⟩
    else if !env.encoderOk then
      ⟨freshBuffer, true, false, some (.plain "audio file construction failed")⟩
    else if !env.channelOk then
      ⟨freshBuffer, true, true, some (.plain "speech channel construction failed")⟩
    else if !env.speakOk then
      ⟨applyWrites freshBuffer env.output, true, true, none⟩
    else if !env.completes then
      ⟨applyWrites freshBuffer env.output, true, true,
        some (.plain "timed out synthesizing speech")⟩
    else
      ⟨applyWrites freshBuffer env.output, true, true, none⟩

/-- The voice record named `"Hysterical"` of the spec's test registry:
female, locale `en_US`. -/
def testHysterical : Voice :=
  { name := "Hysterical", locale := "en_US", gender := Gender.female }

/-- The voice record named `"Fred"` of the spec's test registry: male, locale
`en_US`, also the hard-coded fallback name of `speechHandler`. -/
def testFred : Voice :=
  { name := "Fred", locale := "en_US", gender := Gender.male }

/-- The spec's two-record test registry: `"Hysterical"` then `"Fred"`, in
enumeration order. -/
def testVC : VoiceCollection :=
  { voices := [testHysterical, testFred] }

/-! ### Helper lemmas about the sparse-write model -/

lemma getD_append_replicate_zero (c : List Nat) (k i : Nat) :
    (c ++ List.replicate k 0).getD i 0 = c.getD i 0 := by
  rcases Nat.lt_or_ge i c.length with h | h
  · rw [List.getD_eq_getElem?_getD, List.getD_eq_getElem?_getD,
      List.getElem?_append_left h]
  · rw [List.getD_eq_getElem?_getD, List.getD_eq_getElem?_getD,
      List.getElem?_append_right h, List.getElem?_eq_none (l := c) h,
      List.getElem?_replicate]
    split <;> rfl

lemma length_modelWrite (c p : List Nat) (off : Nat) :
    (modelWrite c p off).length = max c.length (off + p.length) := by
  simp [modelWrite]
  omega

lemma modelWrite_getD (c p : List Nat) (off i : Nat) :
    (modelWrite c p off).getD i 0 =
      if off ≤ i ∧ i < off + p.length then p.getD (i - off) 0 else c.getD i 0 := by
  simp only [modelWrite]
  set c1 := c ++ List.replicate (off + p.length - c.length) 0 with hc1def
  have hc1len : off + p.length ≤ c1.length := by
    rw [hc1def]; simp; omega
  have htl : (c1.take off).length = off := by
    rw [List.length_take]; omega
  have hal : (c1.take off ++ p).length = off + p.length := by
    rw [List.length_append, htl]
  rcases Nat.lt_or_ge i off with h | h
  · rw [List.getD_eq_getElem?_getD,
      List.getElem?_append_left (by rw [hal]; omega),
      List.getElem?_append_left (by rw [htl]; omega),
      List.getElem?_take, if_pos h, ← List.getD_eq_getElem?_getD,
      hc1def, getD_append_replicate_zero, if_neg (by omega)]
  · rcases Nat.lt_or_ge i (off + p.length) with h2 | h2
    · rw [List.getD_eq_getElem?_getD,
        List.getElem?_append_left (by rw [hal]; omega),
        List.getElem?_append_right (by rw [htl]; omega), htl,
        ← List.getD_eq_getElem?_getD, if_pos ⟨h, h2⟩]
    · rw [List.getD_eq_getElem?_getD,
        List.getElem?_append_right (by rw [hal]; omega), hal,
        List.getElem?_drop, show off + p.length + (i - (off + p.length)) = i by omega,
        ← List.getD_eq_getElem?_getD, hc1def, getD_append_replicate_zero,
        if_neg (by omega)]

lemma list_ext_getD {x y : List Nat} (hlen : x.length = y.length)
    (h : ∀ i, x.getD i 0 = y.getD i 0) : x = y := by
  apply List.ext_getElem?
  intro i
  rcases Nat.lt_or_ge i x.length with hi | hi
  · rw [List.getElem?_eq_getElem hi, List.getElem?_eq_getElem (hlen ▸ hi),
      ← List.getD_eq_getElem x 0 hi, ← List.getD_eq_getElem y 0 (hlen ▸ hi), h i]
  · rw [List.getElem?_eq_none hi, List.getElem?_eq_none (hlen ▸ hi)]

lemma modelWrite_comm {w1 w2 : Nat × List Nat} (hd : WDisjoint w1 w2) (c : List Nat) :
    modelWrite (modelWrite c w1.2 w1.1) w2.2 w2.1
      = modelWrite (modelWrite c w2.2 w2.1) w1.2 w1.1 := by
  obtain ⟨a, p⟩ := w1
  obtain ⟨b, q⟩ := w2
  apply list_ext_getD
  · rw [length_modelWrite, length_modelWrite, length_modelWrite, length_modelWrite]
    omega
  · intro i
    rw [modelWrite_getD, modelWrite_getD, modelWrite_getD, modelWrite_getD]
    rcases hd with hd | hd <;> split_ifs <;> first | rfl | omega

/-! ### Helper lemmas about `grow`, `setChunk` and `WriteAt` -/

lemma grow_fst_len (rb : ResponseBuffer) (n : Nat) :
    (rb.grow n).1.len = rb.len + n := rfl

lemma grow_readOfs (rb : ResponseBuffer) (n : Nat) :
    (rb.grow n).1.readOfs = rb.readOfs := rfl

lemma grow_status (rb : ResponseBuffer) (n : Nat) :
    (rb.grow n).1.status = rb.status := rfl

lemma grow_spec (rb : ResponseBuffer) (n : Nat) (h1 : rb.len ≤ rb.arr.length)
    (h2 : ∀ i, rb.len ≤ i → rb.arr.getD i 0 = 0) :
    (rb.grow n).1.buf = rb.buf ++ List.replicate n 0 ∧
    (rb.grow n).1.len ≤ (rb.grow n).1.arr.length ∧
    (∀ i, (rb.grow n).1.len ≤ i → (rb.grow n).1.arr.getD i 0 = 0) := by
  simp only [ResponseBuffer.grow, ResponseBuffer.buf]
  rcases Nat.lt_or_ge rb.arr.length (rb.len + n) with hc | hc
  · rw [if_pos (by omega)]
    have hm : (rb.arr.take rb.len).length = rb.len := by
      rw [List.length_take]; omega
    refine ⟨?_, ?_, ?_⟩
    · rw [List.take_append_eq_append_take, hm,
        List.take_of_length_le (by omega), List.take_replicate,
        Nat.min_eq_left (by omega), Nat.add_sub_cancel_left]
    · simp only [List.length_append, hm, List.length_replicate]
      omega
    · intro i hi
      rw [getD_append_replicate_zero, List.getD_eq_getElem?_getD,
        List.getElem?_eq_none (by omega)]
      rfl
  · rw [if_neg (by omega)]
    refine ⟨?_, by omega, fun i hi => h2 i (by omega)⟩
    rw [List.take_add]
    congr 1
    rw [List.eq_replicate_iff]
    refine ⟨by rw [List.length_take, List.length_drop]; omega, ?_⟩
    intro b hb
    obtain ⟨j, hj, rfl⟩ := List.mem_iff_getElem.mp (List.mem_of_mem_take hb)
    have hjl : rb.len + j < rb.arr.length := by
      rw [List.length_drop] at hj; omega
    rw [List.getElem_drop, ← List.getD_eq_getElem rb.arr 0 hjl]
    exact h2 _ (by omega)

lemma length_setChunk (arr : List Nat) (off : Nat) (q : List Nat)
    (h : off + q.length ≤ arr.length) :
    (setChunk arr off q).length = arr.length := by
  simp [setChunk]
  omega

lemma buf_setChunk (arr : List Nat) (L off : Nat) (p : List Nat)
    (hoffp : off + p.length ≤ L) (hL : L ≤ arr.length) :
    (setChunk arr off p).take L
      = (arr.take L).take off ++ p ++ (arr.take L).drop (off + p.length) := by
  simp only [setChunk]
  have h1 : (arr.take off).length = off := by rw [List.length_take]; omega
  have h2 : (arr.take off ++ p).length = off + p.length := by
    rw [List.length_append, h1]
  rw [List.take_append_eq_append_take, h2,
    List.take_of_length_le (by rw [h2]; omega),
    List.take_take, Nat.min_eq_left (by omega),
    List.drop_take]

lemma setChunk_getD_ge (arr : List Nat) (off : Nat) (p : List Nat) (i : Nat)
    (harr : off ≤ arr.length) (hge : off + p.length ≤ i) :
    (setChunk arr off p).getD i 0 = arr.getD i 0 := by
  simp only [setChunk]
  have h1 : (arr.take off).length = off := by rw [List.length_take]; omega
  have h2 : (arr.take off ++ p).length = off + p.length := by
    rw [List.length_append, h1]
  rw [List.getD_eq_getElem?_getD, List.getElem?_append_right (by rw [h2]; omega),
    h2, List.getElem?_drop, show off + p.length + (i - (off + p.length)) = i by omega,
    ← List.getD_eq_getElem?_getD]

lemma WriteAt_eq_big (rb : ResponseBuffer) (p : List Nat) (off : Nat)
    (hlt : rb.len < off + p.length) :
    rb.WriteAt p (off : Int)
      = some ({ (rb.grow (off + p.length - rb.len)).1 with
                  arr := setChunk (rb.grow (off + p.length - rb.len)).1.arr off p },
              p.length) := by
  simp only [ResponseBuffer.WriteAt]
  rw [if_pos (by omega : (0:Int) < (p.length : Int) + (off : Int) - (rb.len : Int)),
    show ((p.length : Int) + (off : Int) - (rb.len : Int)).toNat
      = off + p.length - rb.len from by omega]
  simp only [grow_fst_len]
  rw [if_pos (⟨by omega, by omega⟩ :
    (0:Int) ≤ (off : Int) ∧ (off : Int) ≤ ((rb.len + (off + p.length - rb.len) : Nat) : Int))]
  rw [Int.toNat_natCast,
    show min (rb.len + (off + p.length - rb.len) - off) p.length = p.length from by omega,
    List.take_length]

lemma WriteAt_eq_small (rb : ResponseBuffer) (p : List Nat) (off : Nat)
    (hle : off + p.length ≤ rb.len) :
    rb.WriteAt p (off : Int)
      = some ({ rb with arr := setChunk rb.arr off p }, p.length) := by
  simp only [ResponseBuffer.WriteAt]
  rw [if_neg (by omega : ¬ (0:Int) < (p.length : Int) + (off : Int) - (rb.len : Int)),
    if_pos (⟨by omega, by omega⟩ :
      (0:Int) ≤ (off : Int) ∧ (off : Int) ≤ ((rb.len : Nat) : Int))]
  rw [Int.toNat_natCast,
    show min (rb.len - off) p.length = p.length from by omega,
    List.take_length]

lemma WriteAtN_spec (rb : ResponseBuffer) (p : List Nat) (off : Nat)
    (h1 : rb.len ≤ rb.arr.length) (h2 : ∀ i, rb.len ≤ i → rb.arr.getD i 0 = 0) :
    rb.WriteAt p (off : Int) = some (rb.WriteAtN p off, p.length) ∧
    (rb.WriteAtN p off).buf = modelWrite rb.buf p off ∧
    (rb.WriteAtN p off).readOfs = rb.readOfs ∧
    (rb.WriteAtN p off).status = rb.status ∧
    (rb.WriteAtN p off).len ≤ (rb.WriteAtN p off).arr.length ∧
    (∀ i, (rb.WriteAtN p off).len ≤ i → (rb.WriteAtN p off).arr.getD i 0 = 0) := by
  have hbuflen : rb.buf.length = rb.len := by
    simp [ResponseBuffer.buf]; omega
  rcases Nat.lt_or_ge rb.len (off + p.length) with hlt | hle
  · obtain ⟨hgbuf, hg1, hg2⟩ := grow_spec rb (off + p.length - rb.len) h1 h2
    have hkey := WriteAt_eq_big rb p off hlt
    set rb1 := (rb.grow (off + p.length - rb.len)).1 with hrb1
    have hN : rb.WriteAtN p off = { rb1 with arr := setChunk rb1.arr off p } := by
      simp [ResponseBuffer.WriteAtN, hkey]
    have hlen1 : rb1.len = off + p.length := by rw [hrb1, grow_fst_len]; omega
    refine ⟨by rw [hkey, hN], ?_, ?_, ?_, ?_, ?_⟩
    · rw [hN]
      show (setChunk rb1.arr off p).take rb1.len = _
      rw [buf_setChunk rb1.arr rb1.len off p (by omega) hg1]
      show rb1.buf.take off ++ p ++ rb1.buf.drop (off + p.length) = _
      rw [hgbuf]
      simp only [modelWrite, hbuflen]
    · rw [hN]
      show rb1.readOfs = rb.readOfs
      rw [hrb1, grow_readOfs]
    · rw [hN]
      show rb1.status = rb.status
      rw [hrb1, grow_status]
    · rw [hN]
      show rb1.len ≤ (setChunk rb1.arr off p).length
      rw [length_setChunk rb1.arr off p (by omega)]
      exact hg1
    · intro i hi
      rw [hN] at hi ⊢
      have hi' : rb1.len ≤ i := hi
      rw [show ({ rb1 with arr := setChunk rb1.arr off p } : ResponseBuffer).arr
          = setChunk rb1.arr off p from rfl,
        setChunk_getD_ge rb1.arr off p i (by omega) (by omega)]
      exact hg2 i hi'
  · have hkey := WriteAt_eq_small rb p off hle
    have hN : rb.WriteAtN p off = { rb with arr := setChunk rb.arr off p } := by
      simp [ResponseBuffer.WriteAtN, hkey]
    refine ⟨by rw [hkey, hN], ?_, ?_, ?_, ?_, ?_⟩
    · rw [hN]
      show (setChunk rb.arr off p).take rb.len = _
      rw [buf_setChunk rb.arr rb.len off p hle h1]
      show rb.buf.take off ++ p ++ rb.buf.drop (off + p.length) = _
      simp only [modelWrite, hbuflen, show off + p.length - rb.len = 0 from by omega,
        List.replicate_zero, List.append_nil]
    · rw [hN]
    · rw [hN]
    · rw [hN]
      show rb.len ≤ (setChunk rb.arr off p).length
      rw [length_setChunk rb.arr off p (by omega)]
      exact h1
    · intro i hi
      rw [hN] at hi ⊢
      have hi' : rb.len ≤ i := hi
      rw [show ({ rb with arr := setChunk rb.arr off p } : ResponseBuffer).arr
          = setChunk rb.arr off p from rfl,
        setChunk_getD_ge rb.arr off p i (by omega) (by omega)]
      exact h2 i hi'

lemma applyWrites_spec (ws : List (Nat × List Nat)) :
    ∀ rb : ResponseBuffer, rb.len ≤ rb.arr.length →
      (∀ i, rb.len ≤ i → rb.arr.getD i 0 = 0) →
      (applyWrites rb ws).buf = ws.foldl (fun c w => modelWrite c w.2 w.1) rb.buf ∧
      (applyWrites rb ws).readOfs = rb.readOfs ∧
      (applyWrites rb ws).len ≤ (applyWrites rb ws).arr.length ∧
      (∀ i, (applyWrites rb ws).len ≤ i → (applyWrites rb ws).arr.getD i 0 = 0) := by
  induction ws with
  | nil => exact fun rb h1 h2 => ⟨rfl, rfl, h1, h2⟩
  | cons w ws ih =>
    intro rb h1 h2
    obtain ⟨-, hbuf, hro, hst, hw1, hw2⟩ := WriteAtN_spec rb w.2 w.1 h1 h2
    obtain ⟨ibuf, iro, i1, i2⟩ := ih (rb.WriteAtN w.2 w.1) hw1 hw2
    have happ : applyWrites rb (w :: ws) = applyWrites (rb.WriteAtN w.2 w.1) ws := rfl
    rw [happ]
    exact ⟨by rw [ibuf, hbuf]; rfl, by rw [iro, hro], i1, i2⟩

lemma drop_take_one (l : List Nat) (i : Nat) (h : i < l.length) :
    (l.drop i).take 1 = [l.getD i 0] := by
  rw [List.drop_eq_getElem_cons h, List.getD_eq_getElem l 0 h]
  rfl

/-! ## Claim C1 -/

/-- C1, as stated, is false: it quantifies over arbitrary sequences of
positional writes "in any order", but for two overlapping writes the order
determines the final bytes.  Writing `[2]` at offset 1 and then `[1, 1]` at
offset 0 leaves `[1, 1]`, while the same two writes applied in increasing
offset order to an all-zero buffer leave `[1, 2]`. -/
theorem c1_overlap_counterexample :
    (applyWrites freshBuffer [(1, [2]), (0, [1, 1])]).buf = [1, 1]
    ∧ modelApply [(0, [1, 1]), (1, [2])] = [1, 2]
    ∧ List.Perm [(1, [2]), (0, [1, 1])] [(0, [1, 1]), (1, [2])]
    ∧ List.Pairwise (fun w1 w2 : Nat × List Nat => w1.1 ≤ w2.1)
        [(0, [1, 1]), (1, [2])]
    ∧ ([1, 1] : List Nat) ≠ [1, 2] := by
  refine ⟨by decide, by decide, by decide, by decide, by decide⟩

/-- C1 (amended to writes with pairwise disjoint ranges): for every sequence
`ws` of positional writes at non-negative offsets whose written byte ranges
are pairwise disjoint, applied to a fresh `ResponseBuffer` in any order, the
final contents equal the result of applying the same writes in increasing
offset order (`sorted`) to an all-zero initial sparse buffer, with unwritten
gaps zero; the contents read back identically via `ReadAt` at each offset and
via a full sequential `Read`. -/
theorem c1_writeAt_order_independent (ws sorted : List (Nat × List Nat))
    (hdisj : ws.Pairwise WDisjoint)
    (hperm : ws.Perm sorted)
    (_hsorted : sorted.Pairwise (fun w1 w2 => w1.1 ≤ w2.1)) :
    (applyWrites freshBuffer ws).buf = modelApply sorted ∧
    (∀ i, i < (modelApply sorted).length →
      (applyWrites freshBuffer ws).ReadAt [0] (i : Int)
        = some ([(modelApply sorted).getD i 0], 1, false)) ∧
    (∃ rb2, (applyWrites freshBuffer ws).Read
        (List.replicate (modelApply sorted).length 0)
      = some (rb2, modelApply sorted, (modelApply sorted).length, true)) := by
  obtain ⟨hbuf, hro, hwf1, hwf2⟩ :=
    applyWrites_spec ws freshBuffer (by simp [freshBuffer]) (by simp [freshBuffer])
  have hcomm : ∀ x ∈ ws, ∀ y ∈ ws, ∀ c : List Nat,
      modelWrite (modelWrite c x.2 x.1) y.2 y.1
        = modelWrite (modelWrite c y.2 y.1) x.2 x.1 := by
    intro x hx y hy c
    by_cases hxy : x = y
    · rw [hxy]
    · exact modelWrite_comm (hdisj.forall (fun u v h => Or.symm h) hx hy hxy) c
  have hfold : ws.foldl (fun c w => modelWrite c w.2 w.1) freshBuffer.buf
      = modelApply sorted := by
    simpa [modelApply, freshBuffer, ResponseBuffer.buf] using hperm.foldl_eq' hcomm []
  set final := applyWrites freshBuffer ws with hfinal
  have hbufref : final.buf = modelApply sorted := by rw [hbuf, hfold]
  have hlenref : (modelApply sorted).length = final.len := by
    rw [← hbufref]
    show (final.arr.take final.len).length = final.len
    rw [List.length_take]
    omega
  have hro0 : final.readOfs = 0 := by rw [hro]; rfl
  refine ⟨hbufref, ?_, ?_⟩
  · intro i hi
    have hilen : i < final.len := by omega
    simp only [ResponseBuffer.ReadAt]
    rw [if_neg (by omega : ¬ ((final.len : Int) ≤ (i : Int))),
      if_neg (by omega : ¬ ((i : Int) < 0)), Int.toNat_natCast,
      show min ([0] : List Nat).length (final.len - i) = 1 from by simp; omega,
      hbufref, drop_take_one _ i (by omega)]
    rfl
  · refine ⟨{ final with readOfs := final.len }, ?_⟩
    simp only [ResponseBuffer.Read]
    rw [if_pos (by omega : final.readOfs ≤ final.len)]
    have hmin : min (List.replicate (modelApply sorted).length (0 : Nat)).length
        (final.len - final.readOfs) = final.len := by
      rw [List.length_replicate, hlenref, hro0]
      omega
    rw [hmin, hro0, List.drop_zero, Nat.zero_add,
      List.take_of_length_le (l := final.buf) (by rw [← hbufref] at hlenref; omega),
      hbufref, hlenref, List.drop_replicate, Nat.sub_self, List.replicate_zero,
      List.append_nil,
      show decide (final.len ≤ final.len) = true from decide_eq_true (by omega)]

/-- C1 (witness): the disjoint writes `[7,8]@4` then `[1,2]@0`, applied in
that (decreasing-offset) order, read back as `[1,2,0,0,7,8]`, the
increasing-offset-order sparse result. -/
theorem c1_writeAt_order_independent_witness :
    (List.Pairwise WDisjoint [(4, [7, 8]), (0, [1, 2])]
      ∧ List.Perm [(4, [7, 8]), (0, [1, 2])] [(0, [1, 2]), (4, [7, 8])]
      ∧ List.Pairwise (fun w1 w2 : Nat × List Nat => w1.1 ≤ w2.1)
          [(0, [1, 2]), (4, [7, 8])])
    ∧ ((applyWrites freshBuffer [(4, [7, 8]), (0, [1, 2])]).buf
          = modelApply [(0, [1, 2]), (4, [7, 8])] ∧
        (∀ i, i < (modelApply [(0, [1, 2]), (4, [7, 8])]).length →
          (applyWrites freshBuffer [(4, [7, 8]), (0, [1, 2])]).ReadAt [0] (i : Int)
            = some ([(modelApply [(0, [1, 2]), (4, [7, 8])]).getD i 0], 1, false)) ∧
        (∃ rb2, (applyWrites freshBuffer [(4, [7, 8]), (0, [1, 2])]).Read
            (List.replicate (modelApply [(0, [1, 2]), (4, [7, 8])]).length 0)
          = some (rb2, modelApply [(0, [1, 2]), (4, [7, 8])],
              (modelApply [(0, [1, 2]), (4, [7, 8])]).length, true))) :=
  ⟨⟨by decide, by decide, by decide⟩,
    c1_writeAt_order_independent [(4, [7, 8]), (0, [1, 2])] [(0, [1, 2]), (4, [7, 8])]
      (by decide) (by decide) (by decide)⟩

/-! ## Claim C7 -/

/-- C7, as stated, is false at negative offsets: `-1` is below the logical
length `1` of the one-byte buffer, yet `ReadAt` with a non-empty destination
does not copy any bytes there — it panics (the slice expression
`rb.buf[off:]` is out of range; modelled as `none`). -/
theorem c7_negative_offset_counterexample :
    ((-1 : Int) < (((⟨[5], 1, 0, 0⟩ : ResponseBuffer)).len : Int))
    ∧ ResponseBuffer.ReadAt ⟨[5], 1, 0, 0⟩ [0] (-1) = none := by
  refine ⟨by decide, by decide⟩

/-- C7 (amended to non-negative offsets for the in-range clause): for every
buffer state, (1) `ReadAt` at an offset at or beyond the logical length with
a non-empty destination returns 0 bytes and the end-of-data error `io.EOF`;
(2) `ReadAt` with a zero-length destination never signals end-of-data, at any
offset; (3) `ReadAt` at a non-negative offset below the logical length copies
as many available bytes as exist — `min |p| (len - off)` — without signaling
end-of-data. -/
theorem c7_readAt_eof (rb : ResponseBuffer) (p : List Nat) (off : Int) :
    ((rb.len : Int) ≤ off → p ≠ [] → rb.ReadAt p off = some (p, 0, true))
    ∧ (p = [] → ∀ r, rb.ReadAt p off = some r → r.2.2 = false)
    ∧ (0 ≤ off → off < (rb.len : Int) →
        rb.ReadAt p off
          = some ((rb.buf.drop off.toNat).take (min p.length (rb.len - off.toNat))
                ++ p.drop (min p.length (rb.len - off.toNat)),
              min p.length (rb.len - off.toNat), false)) := by
  refine ⟨?_, ?_, ?_⟩
  · intro hge hne
    simp only [ResponseBuffer.ReadAt]
    rw [if_pos hge, if_neg (by simpa using hne)]
  · intro hp r hr
    subst hp
    simp only [ResponseBuffer.ReadAt, List.length_nil] at hr
    split at hr
    · cases hr
      rfl
    · split at hr
      · cases hr
      · cases hr
        rfl
  · intro h0 hlt
    simp only [ResponseBuffer.ReadAt]
    rw [if_neg (by omega), if_neg (by omega)]

/-- C7 (witness): on the empty fresh buffer, `ReadAt` at offset 0 (at the
logical length) with the non-empty destination `[7]` returns 0 bytes and
end-of-data. -/
theorem c7_readAt_eof_witness :
    ((freshBuffer.len : Int) ≤ 0 ∧ ([7] : List Nat) ≠ [])
    ∧ freshBuffer.ReadAt [7] 0 = some ([7], 0, true) :=
  ⟨⟨by decide, by decide⟩, (c7_readAt_eof freshBuffer [7] 0).1 (by decide) (by decide)⟩

/-! ## Claim C9 -/

/-- C9: on every Go-reachable buffer state (slice length bounded by the
capacity), the sequential-append `Write p` produces exactly the same buffer
state and returned count as `WriteAt p L` at the current logical length `L`;
in particular the positional write succeeds (no panic). -/
theorem c9_write_eq_writeAt_length (rb : ResponseBuffer) (p : List Nat)
    (h : rb.len ≤ rb.arr.length) :
    rb.WriteAt p (rb.len : Int) = some (rb.Write p) := by
  rcases Nat.eq_zero_or_pos p.length with hp | hp
  · have hpnil : p = [] := List.length_eq_zero.mp hp
    subst hpnil
    simp only [ResponseBuffer.WriteAt, ResponseBuffer.Write, ResponseBuffer.grow,
      List.length_nil, Nat.cast_zero]
    rw [if_neg (by omega : ¬ (0:Int) < (0 : Int) + (rb.len : Int) - (rb.len : Int)),
      if_pos (⟨by omega, by omega⟩ :
        (0:Int) ≤ (rb.len : Int) ∧ (rb.len : Int) ≤ ((rb.len : Nat) : Int)),
      if_neg (by omega : ¬ rb.len + 0 > rb.arr.length), Int.toNat_natCast,
      Nat.add_zero]
  · have hbig : rb.len < rb.len + p.length := by omega
    rw [WriteAt_eq_big rb p rb.len (by omega)]
    simp only [ResponseBuffer.Write, ResponseBuffer.grow]
    rw [show rb.len + p.length - rb.len = p.length from by omega,
      Nat.min_self, List.take_length]

/-- C9 (witness): on the buffer with backing array `[3,0]` and length 1,
writing `[9]` positionally at offset 1 equals appending `[9]`. -/
theorem c9_write_eq_writeAt_length_witness :
    ((⟨[3, 0], 1, 0, 0⟩ : ResponseBuffer)).len
        ≤ ((⟨[3, 0], 1, 0, 0⟩ : ResponseBuffer)).arr.length
    ∧ ResponseBuffer.WriteAt ⟨[3, 0], 1, 0, 0⟩ [9]
        (((⟨[3, 0], 1, 0, 0⟩ : ResponseBuffer)).len : Int)
      = some (ResponseBuffer.Write ⟨[3, 0], 1, 0, 0⟩ [9]) :=
  ⟨by decide, c9_write_eq_writeAt_length ⟨[3, 0], 1, 0, 0⟩ [9] (by decide)⟩

/-! ## Claim C10 -/

/-- C10: at the negative offset -1 with the non-empty byte slice `[1]`, both
`WriteAt` and `ReadAt` on a fresh buffer panic at runtime — the slice
expressions `rb.buf[off:]` are out of range (modelled as `none`) — rather
than returning an error value. -/
theorem c10_negative_offset_unsafe :
    ResponseBuffer.WriteAt freshBuffer [1] (-1) = none
    ∧ ResponseBuffer.ReadAt freshBuffer [1] (-1) = none := by
  refine ⟨by decide, by decide⟩

/-! ## Claim C2 -/

/-- C2: voice resolution follows the priority order — an explicitly named
voice resolves by exact name, ignoring gender/locale parameters, and fails
not-found when absent; otherwise a gender/locale constraint resolves through
`Match`, failing not-found when the match is empty; otherwise the hard-coded
fallback `"Fred"` is used, failing not-found when absent.  On the spec's
test registry: `voice=Hysterical` with `gender=male` resolves to Hysterical;
`gender=female` alone resolves to Hysterical; no parameters resolve to Fred;
`voice=DoesNotExist` fails not-found. -/
theorem c2_voice_resolution_priority :
    (∀ (vc : VoiceCollection) (text vn g l : String) (v : Voice),
        text ≠ "" → vn ≠ "" → vc.FindByName vn = some v →
        validateAndResolve vc text vn g l = .ok v)
    ∧ (∀ (vc : VoiceCollection) (text vn g l : String),
        text ≠ "" → vn ≠ "" → vc.FindByName vn = none →
        validateAndResolve vc text vn g l
          = .notFound ("voice `" ++ vn ++ "` not found"))
    ∧ (∀ (vc : VoiceCollection) (text g l : String) (gg : Gender) (v : Voice),
        text ≠ "" → parseGender g = some gg → (gg ≠ Gender.nil ∨ l ≠ "") →
        vc.Match gg l = some v →
        validateAndResolve vc text "" g l = .ok v)
    ∧ (∀ (vc : VoiceCollection) (text g l : String) (gg : Gender),
        text ≠ "" → parseGender g = some gg → (gg ≠ Gender.nil ∨ l ≠ "") →
        vc.Match gg l = none →
        validateAndResolve vc text "" g l
          = .notFound "cannot find voice with specified gender and/or language")
    ∧ (∀ (vc : VoiceCollection) (text : String) (v : Voice),
        text ≠ "" → vc.FindByName "Fred" = some v →
        validateAndResolve vc text "" "" "" = .ok v)
    ∧ (∀ (vc : VoiceCollection) (text : String),
        text ≠ "" → vc.FindByName "Fred" = none →
        validateAndResolve vc text "" "" ""
          = .notFound "unable to find suitable voice")
    ∧ validateAndResolve testVC "hi" "Hysterical" "male" "" = .ok testHysterical
    ∧ validateAndResolve testVC "hi" "" "female" "" = .ok testHysterical
    ∧ validateAndResolve testVC "hi" "" "" "" = .ok testFred
    ∧ validateAndResolve testVC "hi" "DoesNotExist" "" ""
        = .notFound "voice `DoesNotExist` not found" := by
  refine ⟨?_, ?_, ?_, ?_, ?_, ?_, by decide, by decide, by decide, by decide⟩
  · intro vc text vn g l v ht hv hf
    simp [validateAndResolve, ht, hv, hf]
  · intro vc text vn g l ht hv hf
    simp [validateAndResolve, ht, hv, hf]
  · intro vc text g l gg v ht hg hc hm
    simp [validateAndResolve, ht, hg, hc, hm]
  · intro vc text g l gg ht hg hc hm
    simp [validateAndResolve, ht, hg, hc, hm]
  · intro vc text v ht hf
    simp [validateAndResolve, ht, parseGender, hf]
  · intro vc text ht hf
    simp [validateAndResolve, ht, parseGender, hf]

/-- C2 (witness): on the test registry, `voice=Fred` resolves to Fred by
exact name even alongside a nonsense `gender` and `lang`. -/
theorem c2_voice_resolution_priority_witness :
    (("hi" : String) ≠ "" ∧ ("Fred" : String) ≠ ""
      ∧ testVC.FindByName "Fred" = some testFred)
    ∧ validateAndResolve testVC "hi" "Fred" "bogus" "zz" = .ok testFred :=
  ⟨⟨by decide, by decide, by decide⟩,
    c2_voice_resolution_priority.1 testVC "hi" "Fred" "bogus" "zz" testFred
      (by decide) (by decide) (by decide)⟩

/-! ## Claim C8 -/

/-- C8, as stated, is false: when a valid `voice` parameter is present the
gender token is never validated — the request `text=hi, voice=Hysterical,
gender=bogus` succeeds with the named voice instead of being rejected with a
client-error status. -/
theorem c8_gender_unchecked_counterexample :
    validateAndResolve testVC "hi" "Hysterical" "bogus" "" = .ok testHysterical
    ∧ ∀ m, validateAndResolve testVC "hi" "Hysterical" "bogus" "" ≠ .badRequest m := by
  refine ⟨by decide, ?_⟩
  intro m hm
  rw [show validateAndResolve testVC "hi" "Hysterical" "bogus" "" = .ok testHysterical
    from by decide] at hm
  exact ResolveResult.noConfusion hm

/-- C8 (amended to requests without a `voice` parameter): for every request
with non-empty text, no `voice` parameter, and a gender token that is not one
of the recognized tokens (empty, "male", "female", "neuter"), validation
rejects the request with the client-error message of the code. -/
theorem c8_invalid_gender_rejected (vc : VoiceCollection) (text g lang : String)
    (htext : text ≠ "") (h1 : g ≠ "") (h2 : g ≠ "male") (h3 : g ≠ "female")
    (h4 : g ≠ "neuter") :
    validateAndResolve vc text "" g lang = .badRequest "invalid `gender` parameter" := by
  simp [validateAndResolve, parseGender, htext, h1, h2, h3, h4]

/-- C8 (witness): the unrecognized token "robot" without a voice parameter is
rejected. -/
theorem c8_invalid_gender_rejected_witness :
    (("hi" : String) ≠ "" ∧ ("robot" : String) ≠ "" ∧ ("robot" : String) ≠ "male"
      ∧ ("robot" : String) ≠ "female" ∧ ("robot" : String) ≠ "neuter")
    ∧ validateAndResolve testVC "hi" "" "robot" ""
        = .badRequest "invalid `gender` parameter" :=
  ⟨⟨by decide, by decide, by decide, by decide, by decide⟩,
    c8_invalid_gender_rejected testVC "hi" "robot" "" (by decide) (by decide)
      (by decide) (by decide) (by decide)⟩

/-! ## Claim C5 -/

/-- C5: for every `samplerate` value, the chosen rate is a member of the
fixed set named exactly by the parameter (for a member, the nearest element
of the set is itself), and the default 22050 is used when the parameter is
unspecified (empty) or names no member of the set. -/
theorem c5_samplerate_snap :
    (∀ s : String,
      (∃ r ∈ ([8000, 11025, 16000, 32000, 44100, 48000] : List Nat),
          s = Nat.repr r ∧ parseSampleRate s = r)
      ∨ ((∀ r ∈ ([8000, 11025, 16000, 32000, 44100, 48000] : List Nat),
            s ≠ Nat.repr r)
          ∧ parseSampleRate s = 22050))
    ∧ parseSampleRate "" = 22050 := by
  refine ⟨?_, by decide⟩
  intro s
  by_cases h1 : s = "8000"
  · subst h1; exact Or.inl ⟨8000, by decide, by decide, by decide⟩
  by_cases h2 : s = "11025"
  · subst h2; exact Or.inl ⟨11025, by decide, by decide, by decide⟩
  by_cases h3 : s = "16000"
  · subst h3; exact Or.inl ⟨16000, by decide, by decide, by decide⟩
  by_cases h4 : s = "32000"
  · subst h4; exact Or.inl ⟨32000, by decide, by decide, by decide⟩
  by_cases h5 : s = "44100"
  · subst h5; exact Or.inl ⟨44100, by decide, by decide, by decide⟩
  by_cases h6 : s = "48000"
  · subst h6; exact Or.inl ⟨48000, by decide, by decide, by decide⟩
  refine Or.inr ⟨?_, by simp [parseSampleRate, h1, h2, h3, h4, h5, h6]⟩
  intro r hr
  fin_cases hr
  · rw [show Nat.repr 8000 = "8000" from by decide]; exact h1
  · rw [show Nat.repr 11025 = "11025" from by decide]; exact h2
  · rw [show Nat.repr 16000 = "16000" from by decide]; exact h3
  · rw [show Nat.repr 32000 = "32000" from by decide]; exact h4
  · rw [show Nat.repr 44100 = "44100" from by decide]; exact h5
  · rw [show Nat.repr 48000 = "48000" from by decide]; exact h6

/-! ## Claim C3 -/

/-- C3, as stated, is false at the empty fingerprint: with validator `"*"`
and fingerprint `""`, the claim's condition (validator is the wildcard)
holds, yet `checkEtagDone` returns false — the code rejects an empty
fingerprint before the wildcard test. -/
theorem c3_wildcard_empty_counterexample :
    ¬ (checkEtagDone "*" "" = true ↔ (("*" : String) = "" ∨ ("*" : String) = "*")) := by
  decide

/-- C3 (amended to non-empty fingerprints, which is every fingerprint the
handler computes — a 32-character md5 hex string): the not-modified check
returns true iff the client validator equals the fingerprint or is the
wildcard `"*"`; in particular the empty validator of a client that sent no
`If-None-Match` never matches. -/
theorem c3_checkEtag_iff (inm etag : String) (h : etag ≠ "") :
    checkEtagDone inm etag = true ↔ (inm = etag ∨ inm = "*") := by
  by_cases hin : inm = ""
  · subst hin
    have hL : checkEtagDone "" etag = false := by simp [checkEtagDone]
    rw [hL]
    constructor
    · intro hc
      exact absurd hc (by decide)
    · rintro (h1 | h1)
      · exact absurd h1.symm h
      · exact absurd h1 (by decide)
  · simp only [checkEtagDone, if_pos hin, if_neg h]
    by_cases hc : inm = etag ∨ inm = "*"
    · rw [if_pos hc]
      exact iff_of_true rfl hc
    · rw [if_neg hc]
      exact iff_of_false (by decide) hc

/-- C3 (witness): a matching validator against a non-empty fingerprint. -/
theorem c3_checkEtag_iff_witness :
    (("abc" : String) ≠ "")
    ∧ (checkEtagDone "abc" "abc" = true
        ↔ (("abc" : String) = "abc" ∨ ("abc" : String) = "*")) :=
  ⟨by decide, c3_checkEtag_iff "abc" "abc" (by decide)⟩

/-! ## Claim C4 -/

/-- C4: whenever the handler reaches the fingerprint comparison (text
accepted, voice resolved, `-etag` enabled) and the client's validator
matches, the handler terminates with status 304, the buffer bytes stay
empty, no `Content-Length` is produced, and neither the encoder nor the
synthesis engine is ever invoked. -/
theorem c4_etag_match_shortcircuits (vc : VoiceCollection)
    (text voiceName gender lang inm : String) (env : SynthEnv) (v : Voice)
    (hres : validateAndResolve vc text voiceName gender lang = .ok v)
    (hmatch : checkEtagDone inm env.etag = true) :
    speechHandlerModel vc text voiceName gender lang inm true env
      = ⟨freshBuffer.WriteHeader 304, false, false, none⟩
    ∧ (speechHandlerModel vc text voiceName gender lang inm true env).rb.status = 304
    ∧ (speechHandlerModel vc text voiceName gender lang inm true env).rb.buf = []
    ∧ contentLength
        (speechHandlerModel vc text voiceName gender lang inm true env).rb.buf = none
    ∧ (speechHandlerModel vc text voiceName gender lang inm true env).encoderInvoked
        = false
    ∧ (speechHandlerModel vc text voiceName gender lang inm true env).engineInvoked
        = false := by
  have hmain : speechHandlerModel vc text voiceName gender lang inm true env
      = ⟨freshBuffer.WriteHeader 304, false, false, none⟩ := by
    simp [speechHandlerModel, hres, hmatch]
  refine ⟨hmain, ?_, ?_, ?_, ?_, ?_⟩ <;> rw [hmain] <;> rfl

/-- C4 (witness): a concrete matching conditional request against the test
registry is short-circuited. -/
theorem c4_etag_match_shortcircuits_witness :
    (validateAndResolve testVC "hi" "Fred" "" "" = .ok testFred
      ∧ checkEtagDone "x"
          ({ etag := "x", encoderOk := true, channelOk := true, speakOk := true,
             completes := true, output := [(0, [1, 2])] } : SynthEnv).etag = true)
    ∧ (speechHandlerModel testVC "hi" "Fred" "" "" "x" true
          { etag := "x", encoderOk := true, channelOk := true, speakOk := true,
            completes := true, output := [(0, [1, 2])] }
        = ⟨freshBuffer.WriteHeader 304, false, false, none⟩
      ∧ (speechHandlerModel testVC "hi" "Fred" "" "" "x" true
          { etag := "x", encoderOk := true, channelOk := true, speakOk := true,
            completes := true, output := [(0, [1, 2])] }).rb.status = 304
      ∧ (speechHandlerModel testVC "hi" "Fred" "" "" "x" true
          { etag := "x", encoderOk := true, channelOk := true, speakOk := true,
            completes := true, output := [(0, [1, 2])] }).rb.buf = []
      ∧ contentLength (speechHandlerModel testVC "hi" "Fred" "" "" "x" true
          { etag := "x", encoderOk := true, channelOk := true, speakOk := true,
            completes := true, output := [(0, [1, 2])] }).rb.buf = none
      ∧ (speechHandlerModel testVC "hi" "Fred" "" "" "x" true
          { etag := "x", encoderOk := true, channelOk := true, speakOk := true,
            completes := true, output := [(0, [1, 2])] }).encoderInvoked = false
      ∧ (speechHandlerModel testVC "hi" "Fred" "" "" "x" true
          { etag := "x", encoderOk := true, channelOk := true, speakOk := true,
            completes := true, output := [(0, [1, 2])] }).engineInvoked = false) :=
  ⟨⟨by decide, by decide⟩,
    c4_etag_match_shortcircuits testVC "hi" "Fred" "" "" "x"
      { etag := "x", encoderOk := true, channelOk := true, speakOk := true,
        completes := true, output := [(0, [1, 2])] } testFred
      (by decide) (by decide)⟩

/-! ## Claim C6 -/

/-- C6 (code bug evidence): `handleJSONError` echoes the error's own message
for every status up to and including 500 (`status <= 500`), so the 500-class
errors this server produces — panic, encoder/engine construction failure,
synthesis timeout — reach the client verbatim instead of as the generic
status text; the masking branch only fires for statuses strictly above 500,
which the server never generates.  Client-error messages (status 400) are
echoed verbatim, as the claim states. -/
theorem c6_status500_detail_echoed :
    handleJSONErrorMessage 500 "timed out synthesizing speech"
        = "timed out synthesizing speech"
    ∧ statusText 500 = "Internal Server Error"
    ∧ handleJSONErrorMessage 500 "timed out synthesizing speech" ≠ statusText 500
    ∧ handleJSONErrorMessage 400 "missing `text` parameter"
        = "missing `text` parameter"
    ∧ handleJSONErrorMessage 501 "internal detail" = "Not Implemented" := by
  refine ⟨by decide, by decide, by decide, by decide, by decide⟩

end Gomitalk
